import Mathlib

/-!
Shallow embedding of `gpg_exchange/exchange.py` (the `Exchange` facade over an
external OpenPGP engine).  The engine (the `gpg` library: context, keyring,
cryptography) is modelled as an abstract record of functions; the definitions
below translate the facade code itself: recipient normalization, data-buffer
seek/read, result inspection and exception mapping.
-/

/-- A key object in the engine's keyring, as yielded by `Context.keylist`.
Opaque to the facade; identified here by its fingerprint string. -/
structure Key where
  fpr : String
deriving DecidableEq

/-- One entry of `ImportResult.imports`.  `fpr = none` models the entry
lacking the `fpr` attribute (the `AttributeError` branch of the source). -/
structure ImportEntry where
  fpr : Option String
deriving DecidableEq

/-- The engine's result object for `op_import`: counts of keys considered and
imported, and the per-key entry list. -/
structure ImportResult where
  considered : Nat
  imported : Nat
  imports : List ImportEntry
deriving DecidableEq

/-- A Python value that can occur as an element of the recipients list handed
to the engine: either an actual `Key`, or a whole non-list/non-tuple
collection object (set, generator, ...) that was wrapped as a single
element by `Exchange._encrypt`. -/
inductive PyObj where
  | key (k : Key)
  | coll (ks : List Key)
deriving DecidableEq

/-- The dynamic `recipients` argument of `encrypt_text` / `encrypt_file`
(besides `None`, which is modelled by `Option.none` around this type):
a single `Key`, a Python `list` of keys, a Python `tuple` of keys, or some
other collection of keys (set, generator, ...), which is *not* an instance
of `(list, tuple)`. -/
inductive Recipients where
  | key (k : Key)
  | list (ks : List Key)
  | tuple (ks : List Key)
  | coll (ks : List Key)
deriving DecidableEq

/-- The engine's `GPGMEError`: carries an error code (`getcode()`) and a
message. -/
structure GPGMEError where
  code : Nat
  message : String
deriving DecidableEq

/-- `gpg.errors.NO_DATA` (`GPG_ERR_NO_DATA`): the engine code for "no
encrypted data found". -/
def NO_DATA : Nat := 58

/-- The Python exceptions the facade raises or lets propagate. -/
inductive PyError where
  | keyError (pattern : String)
  | valueErrorResult (message : String) (result : ImportResult)
  | valueError (message : String)
  | gpgmeError (e : GPGMEError)
deriving DecidableEq

/-- A `gpg.Data` buffer: its contents and the current read/write position. -/
structure Data where
  contents : String
  pos : Nat
deriving DecidableEq

/-- `data.seek(offset, os.SEEK_SET)`. -/
def Data.seek (d : Data) (offset : Nat) : Data :=
  { d with pos := offset }

/-- `data.read()`: read from the current position to the end. -/
def Data.read (d : Data) : String :=
  d.contents.drop d.pos

/-- A `gpg.Data` buffer as it stands right after the engine wrote `s` into
it: the position is at the end of the written output. -/
def Data.written (s : String) : Data :=
  ⟨s, s.length⟩

/-- One invocation of the engine's `Context.encrypt`: the plaintext, the
recipients list as passed, and the `always_trust` flag. -/
structure EncryptCall where
  plaintext : String
  recipients : List PyObj
  alwaysTrust : Bool
deriving DecidableEq

/-- The external OpenPGP engine (`gpg.Context` plus `op_*` operations),
abstracted as a record of functions.  `keylist` returns the listing for a
pattern; `op_import` the import result for a payload; `op_export` the bytes
written into the export buffer; `encrypt` the ciphertext written for a call;
`decrypt` either the plaintext written or a raised `GPGMEError`. -/
structure Engine where
  keylist : String → List Key
  op_import : String → ImportResult
  op_export : String → String
  encrypt : EncryptCall → String
  decrypt : String → Except GPGMEError String

namespace Exchange

/-- `Exchange._read_data`: seek to the start, then read the whole buffer. -/
def read_data (d : Data) : String :=
  (d.seek 0).read

/-- `Exchange.find_key`: take the first entry of the engine's keyring listing
for `pattern`; on `StopIteration` (empty listing) raise `KeyError(pattern)`. -/
def find_key (g : Engine) (pattern : String) : Except PyError Key :=
  match g.keylist pattern with
  | [] => .error (.keyError pattern)
  | k :: _ => .ok k

/-- `Exchange._get_imported_key`: read `import_result.imports[0].fpr` and look
it up with `find_key`; any `KeyError`, `IndexError` or `AttributeError` is
re-raised as `ValueError(str(error), import_result)`. -/
def get_imported_key (g : Engine) (import_result : ImportResult) :
    Except PyError Key :=
  match import_result.imports with
  | [] => .error (.valueErrorResult "list index out of range" import_result)
  | entry :: _ =>
    match entry.fpr with
    | none =>
      .error (.valueErrorResult "object has no attribute fpr" import_result)
    | some fpr =>
      match find_key g fpr with
      | .ok key => .ok key
      | .error (.keyError p) =>
        .error (.valueErrorResult ("\x27" ++ p ++ "\x27") import_result)
      | .error e => .error e

/-- `Exchange.import_key`: run the engine import, then check `considered`,
then `imported`, then resolve the imported key. -/
def import_key (g : Engine) (pubkey : String) :
    Except PyError (Key × ImportResult) :=
  let result := g.op_import pubkey
  if result.considered ≠ 1 then
    .error (.valueErrorResult "Exactly one public key must be provided" result)
  else if result.imported ≠ 1 then
    .error (.valueErrorResult "Given public key must be valid" result)
  else
    match get_imported_key g result with
    | .ok key => .ok (key, result)
    | .error e => .error e

/-- `Exchange.export_key`: run the engine export into a fresh buffer and
return `_read_data` of that buffer.  No validation of the output. -/
def export_key (g : Engine) (pattern : String) : Except PyError String :=
  .ok (read_data (Data.written (g.op_export pattern)))

/-- The recipient normalization of `Exchange._encrypt`: `None` becomes `[]`;
anything that is not an instance of `(list, tuple)` is wrapped whole as
`[recipients]`; a list or tuple is passed through element-wise. -/
def normalize_recipients : Option Recipients → List PyObj
  | Option.none => []
  | some (.key k) => [.key k]
  | some (.coll ks) => [.coll ks]
  | some (.list ks) => ks.map .key
  | some (.tuple ks) => ks.map .key

/-- `Exchange._encrypt`: normalize the recipients, then invoke the engine's
`encrypt` once with the normalized list and the `always_trust` flag.  Returns
the ciphertext buffer the engine wrote, together with the list of engine
encrypt invocations the call performed. -/
def encrypt_inner (g : Engine) (plaintext : String)
    (recipients : Option Recipients) (always_trust : Bool) :
    Data × List EncryptCall :=
  let call : EncryptCall :=
    ⟨plaintext, normalize_recipients recipients, always_trust⟩
  (Data.written (g.encrypt call), [call])

/-- `Exchange.encrypt_text`: wrap `data` in a buffer, encrypt into a fresh
buffer via `_encrypt`, return `_read_data` of the ciphertext buffer (paired
with the engine encrypt invocations performed). -/
def encrypt_text (g : Engine) (data : String)
    (recipients : Option Recipients) (always_trust : Bool) :
    String × List EncryptCall :=
  let r := encrypt_inner g data recipients always_trust
  (read_data r.1, r.2)

/-- `Exchange.encrypt_file`: same as `encrypt_text` but the buffers are
backed by the caller's streams; the ciphertext lands in the output stream. -/
def encrypt_file (g : Engine) (input_file : String)
    (recipients : Option Recipients) (always_trust : Bool) :
    String × List EncryptCall :=
  let r := encrypt_inner g input_file recipients always_trust
  (r.1.contents, r.2)

/-- `Exchange._decrypt`: invoke the engine's decrypt; on a `GPGMEError` whose
code is `NO_DATA`, raise `ValueError('No encrypted data')`; re-raise any
other `GPGMEError` unchanged. -/
def decrypt_inner (g : Engine) (ciphertext : String) :
    Except PyError Data :=
  match g.decrypt ciphertext with
  | .ok plain => .ok (Data.written plain)
  | .error e =>
    if e.code = NO_DATA then .error (.valueError "No encrypted data")
    else .error (.gpgmeError e)

/-- `Exchange.decrypt_text`: decrypt into a fresh sink buffer and return
`_read_data` of the sink. -/
def decrypt_text (g : Engine) (data : String) : Except PyError String :=
  match decrypt_inner g data with
  | .ok sink => .ok (read_data sink)
  | .error e => .error e

/-- `Exchange.decrypt_file`: same as `decrypt_text` but stream-backed; the
plaintext lands in the output stream. -/
def decrypt_file (g : Engine) (input_file : String) :
    Except PyError String :=
  match decrypt_inner g input_file with
  | .ok sink => .ok sink.contents
  | .error e => .error e

end Exchange

/-- A configurable stub engine giving constant answers for each operation
(its encrypt echoes the plaintext); used to build concrete instances. -/
def testEngine (keys : List Key) (res : ImportResult) (exported : String)
    (dec : Except GPGMEError String) : Engine where
  keylist _ := keys
  op_import _ := res
  op_export _ := exported
  encrypt c := c.plaintext
  decrypt _ := dec

/-- An engine whose encrypt echoes the plaintext and whose decrypt succeeds
with its input unchanged, so decrypt inverts encrypt. -/
def echoEngine : Engine where
  keylist _ := []
  op_import _ := ⟨0, 0, []⟩
  op_export _ := ""
  encrypt c := c.plaintext
  decrypt s := .ok s

/-- Reading a freshly written buffer with `_read_data` yields exactly the
written contents, whatever the buffer position was left at. -/
theorem read_data_written (s : String) :
    Exchange.read_data (Data.written s) = s := by
  simp [Exchange.read_data, Data.written, Data.seek, Data.read, String.drop_eq]

/-- `_get_imported_key` either resolves a key or fails with a `ValueError`
carrying the original import result; no other outcome exists. -/
theorem get_imported_key_cases (g : Engine) (r : ImportResult) :
    (∃ k, Exchange.get_imported_key g r = .ok k) ∨
    (∃ msg, Exchange.get_imported_key g r =
      .error (.valueErrorResult msg r)) := by
  rcases hI : r.imports with _ | ⟨entry, rest⟩
  · exact .inr ⟨"list index out of range", by
      simp [Exchange.get_imported_key, hI]⟩
  · rcases hF : entry.fpr with _ | fpr
    · exact .inr ⟨"object has no attribute fpr", by
        simp [Exchange.get_imported_key, hI, hF]⟩
    · rcases hK : g.keylist fpr with _ | ⟨k, ks⟩
      · exact .inr ⟨"\x27" ++ fpr ++ "\x27", by
          simp [Exchange.get_imported_key, Exchange.find_key, hI, hF, hK]⟩
      · exact .inl ⟨k, by
          simp [Exchange.get_imported_key, Exchange.find_key, hI, hF, hK]⟩

/-- C4: for every pattern, `find_key` returns the first entry of the engine's
keyring listing when the listing is non-empty, signals `KeyError` carrying
the pattern when the listing is empty, and no other outcome is possible. -/
theorem find_key_spec (g : Engine) (pattern : String) :
    (g.keylist pattern = [] →
      Exchange.find_key g pattern = .error (.keyError pattern)) ∧
    (∀ k ks, g.keylist pattern = k :: ks →
      Exchange.find_key g pattern = .ok k) ∧
    (∀ e, Exchange.find_key g pattern = .error e → e = .keyError pattern) := by
  refine ⟨fun h => by simp [Exchange.find_key, h],
    fun k ks h => by simp [Exchange.find_key, h], fun e he => ?_⟩
  rcases h : g.keylist pattern with _ | ⟨k, ks⟩
  · simp [Exchange.find_key, h] at he
    exact he.symm
  · simp [Exchange.find_key, h] at he

/-- Closed instances for `find_key_spec`: an empty listing gives `KeyError`
with the pattern, a two-key listing gives the first key. -/
theorem find_key_spec_witness :
    Exchange.find_key (testEngine [] ⟨0, 0, []⟩ "" (.ok "")) "pat" =
      .error (.keyError "pat") ∧
    Exchange.find_key (testEngine [⟨"F1"⟩, ⟨"F2"⟩] ⟨0, 0, []⟩ "" (.ok ""))
      "pat" = .ok ⟨"F1"⟩ :=
  ⟨(find_key_spec (testEngine [] ⟨0, 0, []⟩ "" (.ok "")) "pat").1 rfl,
   (find_key_spec (testEngine [⟨"F1"⟩, ⟨"F2"⟩] ⟨0, 0, []⟩ "" (.ok ""))
      "pat").2.1 ⟨"F1"⟩ [⟨"F2"⟩] rfl⟩

/-- C7: for every pattern, `export_key` returns exactly the engine's export
output (read from the start of the output buffer) wrapped in success; it
never raises a condition of its own, so an unmatched pattern just yields the
engine's (possibly empty) output as-is. -/
theorem export_key_passthrough (g : Engine) (pattern : String) :
    Exchange.export_key g pattern = .ok (g.op_export pattern) := by
  simp [Exchange.export_key, read_data_written]

/-- C5: `encrypt_text` / `encrypt_file` normalize the recipients argument to
a list — `None` to `[]` (symmetric mode), a single `Key` to a one-element
list, a list or tuple of keys element-wise — and then invoke the engine's
encrypt exactly once with that list and the `always_trust` flag. -/
theorem encrypt_normalizes_recipients (g : Engine) (data : String) (t : Bool)
    (k : Key) (ks : List Key) (R : Option Recipients) :
    Exchange.normalize_recipients Option.none = [] ∧
    Exchange.normalize_recipients (some (.key k)) = [.key k] ∧
    Exchange.normalize_recipients (some (.list ks)) = ks.map .key ∧
    Exchange.normalize_recipients (some (.tuple ks)) = ks.map .key ∧
    (Exchange.encrypt_text g data R t).2 =
      [⟨data, Exchange.normalize_recipients R, t⟩] ∧
    (Exchange.encrypt_text g data R t).1 =
      g.encrypt ⟨data, Exchange.normalize_recipients R, t⟩ ∧
    (Exchange.encrypt_file g data R t).2 =
      [⟨data, Exchange.normalize_recipients R, t⟩] ∧
    (Exchange.encrypt_file g data R t).1 =
      g.encrypt ⟨data, Exchange.normalize_recipients R, t⟩ := by
  refine ⟨rfl, rfl, rfl, rfl, rfl, ?_, rfl, rfl⟩
  simp [Exchange.encrypt_text, Exchange.encrypt_inner, read_data_written]

/-- C9: encrypting with recipients equal to the empty list produces exactly
the same call as encrypting with recipients equal to `None`: both reach the
engine with an empty recipient list (symmetric mode), never an error. -/
theorem empty_recipients_is_symmetric (g : Engine) (data : String)
    (t : Bool) :
    Exchange.encrypt_text g data (some (.list [])) t =
      Exchange.encrypt_text g data Option.none t ∧
    Exchange.encrypt_file g data (some (.list [])) t =
      Exchange.encrypt_file g data Option.none t ∧
    Exchange.normalize_recipients (some (.list [])) =
      Exchange.normalize_recipients Option.none :=
  ⟨rfl, rfl, rfl⟩

/-- C10: a recipients value that is not `None`, a list, or a tuple (e.g. a
set or generator of keys) is wrapped whole as a single element of the list
handed to the engine, while a list or tuple is passed element-wise. -/
theorem other_collection_wrapped_whole (g : Engine) (data : String)
    (t : Bool) (ks : List Key) :
    Exchange.normalize_recipients (some (.coll ks)) = [.coll ks] ∧
    (Exchange.encrypt_text g data (some (.coll ks)) t).2 =
      [⟨data, [.coll ks], t⟩] ∧
    (Exchange.encrypt_file g data (some (.coll ks)) t).2 =
      [⟨data, [.coll ks], t⟩] ∧
    (Exchange.encrypt_text g data (some (.list ks)) t).2 =
      [⟨data, ks.map .key, t⟩] ∧
    (Exchange.encrypt_text g data (some (.tuple ks)) t).2 =
      [⟨data, ks.map .key, t⟩] :=
  ⟨rfl, rfl, rfl, rfl, rfl⟩

/-- C1: decrypting the output of `encrypt_text P R` with `decrypt_text`
yields `P` again, for every plaintext `P` and every recipients value `R`
(`None` for symmetric, a single key, or a collection), provided the engine
inverts its own encryption there (the model of "correct passphrase/keys are
available to the decrypting context"). -/
theorem encrypt_decrypt_round_trip (g : Engine) (P : String)
    (R : Option Recipients) (t : Bool)
    (h : ∀ c : EncryptCall, g.decrypt (g.encrypt c) = .ok c.plaintext) :
    Exchange.decrypt_text g (Exchange.encrypt_text g P R t).1 = .ok P := by
  have h1 : (Exchange.encrypt_text g P R t).1 =
      g.encrypt ⟨P, Exchange.normalize_recipients R, t⟩ := by
    simp [Exchange.encrypt_text, Exchange.encrypt_inner, read_data_written]
  rw [h1]
  simp [Exchange.decrypt_text, Exchange.decrypt_inner,
    h ⟨P, Exchange.normalize_recipients R, t⟩, read_data_written]

/-- Closed instance for `encrypt_decrypt_round_trip`: the echo engine
inverts its own encryption, and the round-trip returns the plaintext. -/
theorem encrypt_decrypt_round_trip_witness :
    Exchange.decrypt_text echoEngine
      (Exchange.encrypt_text echoEngine "hello world" Option.none false).1 =
      .ok "hello world" :=
  encrypt_decrypt_round_trip echoEngine "hello world" Option.none false
    (fun _ => rfl)

/-- C3: when the engine's decrypt raises `GPGMEError` with code `NO_DATA`,
`decrypt_text` / `decrypt_file` signal `ValueError` with message "No
encrypted data"; for any other engine error code the original `GPGMEError`
propagates unchanged. -/
theorem decrypt_error_translation (g : Engine) (c : String)
    (e : GPGMEError) (h : g.decrypt c = .error e) :
    (e.code = NO_DATA →
      Exchange.decrypt_text g c = .error (.valueError "No encrypted data") ∧
      Exchange.decrypt_file g c =
        .error (.valueError "No encrypted data")) ∧
    (e.code ≠ NO_DATA →
      Exchange.decrypt_text g c = .error (.gpgmeError e) ∧
      Exchange.decrypt_file g c = .error (.gpgmeError e)) := by
  constructor
  · intro hc
    constructor <;>
      simp [Exchange.decrypt_text, Exchange.decrypt_file,
        Exchange.decrypt_inner, h, hc]
  · intro hc
    constructor <;>
      simp [Exchange.decrypt_text, Exchange.decrypt_file,
        Exchange.decrypt_inner, h, hc]

/-- Closed instances for `decrypt_error_translation`: code 58 (`NO_DATA`)
becomes the "No encrypted data" `ValueError`; code 11 propagates as the
original engine error. -/
theorem decrypt_error_translation_witness :
    Exchange.decrypt_text (testEngine [] ⟨0, 0, []⟩ "" (.error ⟨58, "m"⟩))
      "x" = .error (.valueError "No encrypted data") ∧
    Exchange.decrypt_text
      (testEngine [] ⟨0, 0, []⟩ "" (.error ⟨11, "bad mac"⟩)) "x" =
      .error (.gpgmeError ⟨11, "bad mac"⟩) :=
  ⟨((decrypt_error_translation (testEngine [] ⟨0, 0, []⟩ "" (.error ⟨58, "m"⟩))
      "x" ⟨58, "m"⟩ rfl).1 (by decide)).1,
   ((decrypt_error_translation
      (testEngine [] ⟨0, 0, []⟩ "" (.error ⟨11, "bad mac"⟩))
      "x" ⟨11, "bad mac"⟩ rfl).2 (by decide)).1⟩

/-- C2: `import_key` signals `ValueError` carrying the import result when the
number of keys considered is not 1 (this check precedes the imported-count
check), signals `ValueError` carrying the result when considered is 1 but
imported is not 1, and only when both counts are 1 can it return a
`(Key, ImportResult)` pair — and then the returned result is the engine's. -/
theorem import_key_count_checks (g : Engine) (pubkey : String) :
    ((g.op_import pubkey).considered ≠ 1 →
      Exchange.import_key g pubkey = .error (.valueErrorResult
        "Exactly one public key must be provided" (g.op_import pubkey))) ∧
    ((g.op_import pubkey).considered = 1 →
      (g.op_import pubkey).imported ≠ 1 →
      Exchange.import_key g pubkey = .error (.valueErrorResult
        "Given public key must be valid" (g.op_import pubkey))) ∧
    (∀ k res, Exchange.import_key g pubkey = .ok (k, res) →
      (g.op_import pubkey).considered = 1 ∧
      (g.op_import pubkey).imported = 1 ∧ res = g.op_import pubkey) := by
  refine ⟨fun h => by simp [Exchange.import_key, h],
    fun h1 h2 => by simp [Exchange.import_key, h1, h2], ?_⟩
  intro k res hok
  by_cases h1 : (g.op_import pubkey).considered = 1
  · by_cases h2 : (g.op_import pubkey).imported = 1
    · refine ⟨h1, h2, ?_⟩
      rcases hg : Exchange.get_imported_key g (g.op_import pubkey)
        with e | key
      · simp [Exchange.import_key, h1, h2, hg] at hok
      · simp [Exchange.import_key, h1, h2, hg] at hok
        exact hok.2.symm
    · simp [Exchange.import_key, h1, h2] at hok
  · simp [Exchange.import_key, h1] at hok

/-- Closed instances for `import_key_count_checks`: considered = 2 trips the
first check, considered = 1 with imported = 0 trips the second, and a
returned pair implies both counts are 1. -/
theorem import_key_count_checks_witness :
    Exchange.import_key (testEngine [] ⟨2, 0, []⟩ "" (.ok "")) "pk" =
      .error (.valueErrorResult
        "Exactly one public key must be provided" ⟨2, 0, []⟩) ∧
    Exchange.import_key (testEngine [] ⟨1, 0, []⟩ "" (.ok "")) "pk" =
      .error (.valueErrorResult
        "Given public key must be valid" ⟨1, 0, []⟩) ∧
    (((testEngine [⟨"F"⟩] ⟨1, 1, [⟨some "F"⟩]⟩ "" (.ok "")).op_import
        "pk").considered = 1 ∧
     ((testEngine [⟨"F"⟩] ⟨1, 1, [⟨some "F"⟩]⟩ "" (.ok "")).op_import
        "pk").imported = 1 ∧
     (⟨1, 1, [⟨some "F"⟩]⟩ : ImportResult) =
       (testEngine [⟨"F"⟩] ⟨1, 1, [⟨some "F"⟩]⟩ "" (.ok "")).op_import
         "pk") :=
  ⟨(import_key_count_checks (testEngine [] ⟨2, 0, []⟩ "" (.ok "")) "pk").1
      (by decide),
   (import_key_count_checks (testEngine [] ⟨1, 0, []⟩ "" (.ok "")) "pk").2.1
      rfl (by decide),
   (import_key_count_checks
      (testEngine [⟨"F"⟩] ⟨1, 1, [⟨some "F"⟩]⟩ "" (.ok "")) "pk").2.2
      ⟨"F"⟩ ⟨1, 1, [⟨some "F"⟩]⟩ rfl⟩

/-- C6: when both import counts are 1, `import_key` resolves the imported
key via the first entry's fingerprint and `find_key`; a missing entry,
missing fingerprint attribute, or failed lookup becomes a `ValueError`
carrying the original import result, and otherwise the resolved key is
returned together with that result. -/
theorem import_key_resolution (g : Engine) (pubkey : String)
    (h1 : (g.op_import pubkey).considered = 1)
    (h2 : (g.op_import pubkey).imported = 1) :
    (∀ e, Exchange.get_imported_key g (g.op_import pubkey) = .error e →
      (∃ msg, e = .valueErrorResult msg (g.op_import pubkey)) ∧
      Exchange.import_key g pubkey = .error e) ∧
    (∀ k, Exchange.get_imported_key g (g.op_import pubkey) = .ok k →
      Exchange.import_key g pubkey = .ok (k, g.op_import pubkey)) ∧
    ((g.op_import pubkey).imports = [] →
      Exchange.get_imported_key g (g.op_import pubkey) = .error
        (.valueErrorResult "list index out of range" (g.op_import pubkey))) ∧
    (∀ entry rest, (g.op_import pubkey).imports = entry :: rest →
      entry.fpr = Option.none →
      Exchange.get_imported_key g (g.op_import pubkey) = .error
        (.valueErrorResult "object has no attribute fpr"
          (g.op_import pubkey))) ∧
    (∀ entry rest fpr, (g.op_import pubkey).imports = entry :: rest →
      entry.fpr = some fpr → g.keylist fpr = [] →
      Exchange.get_imported_key g (g.op_import pubkey) = .error
        (.valueErrorResult ("\x27" ++ fpr ++ "\x27")
          (g.op_import pubkey))) := by
  refine ⟨fun e he => ⟨?_, ?_⟩, fun k hk => ?_, fun hI => ?_,
    fun entry rest hI hF => ?_, fun entry rest fpr hI hF hK => ?_⟩
  · rcases get_imported_key_cases g (g.op_import pubkey)
      with ⟨k, hk⟩ | ⟨msg, hm⟩
    · rw [hk] at he
      exact absurd he (by simp)
    · rw [hm] at he
      exact ⟨msg, by simpa using he.symm⟩
  · simp [Exchange.import_key, h1, h2, he]
  · simp [Exchange.import_key, h1, h2, hk]
  · simp [Exchange.get_imported_key, hI]
  · simp [Exchange.get_imported_key, hI, hF]
  · simp [Exchange.get_imported_key, Exchange.find_key, hI, hF, hK]

/-- Closed instances for `import_key_resolution`: a resolvable import
returns the key and result; an import whose fingerprint is absent from the
keyring yields the carrying `ValueError` from both `_get_imported_key` and
`import_key`. -/
theorem import_key_resolution_witness :
    Exchange.import_key
      (testEngine [⟨"F"⟩] ⟨1, 1, [⟨some "F"⟩]⟩ "" (.ok "")) "pk" =
      .ok (⟨"F"⟩, ⟨1, 1, [⟨some "F"⟩]⟩) ∧
    Exchange.get_imported_key (testEngine [] ⟨1, 1, [⟨some "F"⟩]⟩ "" (.ok ""))
      ((testEngine [] ⟨1, 1, [⟨some "F"⟩]⟩ "" (.ok "")).op_import "pk") =
      .error (.valueErrorResult ("\x27" ++ "F" ++ "\x27")
        ⟨1, 1, [⟨some "F"⟩]⟩) ∧
    Exchange.import_key (testEngine [] ⟨1, 1, [⟨some "F"⟩]⟩ "" (.ok "")) "pk" =
      .error (.valueErrorResult ("\x27" ++ "F" ++ "\x27")
        ⟨1, 1, [⟨some "F"⟩]⟩) :=
  ⟨(import_key_resolution
      (testEngine [⟨"F"⟩] ⟨1, 1, [⟨some "F"⟩]⟩ "" (.ok "")) "pk" rfl rfl).2.1
      ⟨"F"⟩ rfl,
   (import_key_resolution
      (testEngine [] ⟨1, 1, [⟨some "F"⟩]⟩ "" (.ok "")) "pk" rfl rfl).2.2.2.2
      ⟨some "F"⟩ [] "F" rfl rfl rfl,
   ((import_key_resolution
      (testEngine [] ⟨1, 1, [⟨some "F"⟩]⟩ "" (.ok "")) "pk" rfl rfl).1
      (.valueErrorResult ("\x27" ++ "F" ++ "\x27") ⟨1, 1, [⟨some "F"⟩]⟩)
      rfl).2⟩

/-- C8: failures are surfaced as typed conditions with detail and never
swallowed or retried: `find_key` failures carry the pattern; `import_key`
failures carry the engine's import result; an engine decrypt error always
surfaces (as the original error unless its code is `NO_DATA`, which becomes
the typed "No encrypted data" condition) and an engine decrypt success is
returned intact; the engine encrypt is invoked exactly once per call; and
`export_key` forwards the engine output without failure of its own. -/
theorem error_propagation (g : Engine) :
    (∀ pattern e, Exchange.find_key g pattern = .error e →
      e = .keyError pattern) ∧
    (∀ pubkey e, Exchange.import_key g pubkey = .error e →
      ∃ msg, e = .valueErrorResult msg (g.op_import pubkey)) ∧
    (∀ c ge, g.decrypt c = .error ge →
      ∃ e, Exchange.decrypt_text g c = .error e ∧
        Exchange.decrypt_file g c = .error e ∧
        (ge.code ≠ NO_DATA → e = .gpgmeError ge) ∧
        (ge.code = NO_DATA → e = .valueError "No encrypted data")) ∧
    (∀ c p, g.decrypt c = .ok p → Exchange.decrypt_text g c = .ok p) ∧
    (∀ data R t, (Exchange.encrypt_text g data R t).2.length = 1) ∧
    (∀ pattern, Exchange.export_key g pattern =
      .ok (g.op_export pattern)) := by
  refine ⟨fun pattern e he => ?_, fun pubkey e he => ?_,
    fun c ge hge => ?_, fun c p hp => ?_, fun data R t => rfl,
    fun pattern => by simp [Exchange.export_key, read_data_written]⟩
  · rcases h : g.keylist pattern with _ | ⟨k, ks⟩
    · simp [Exchange.find_key, h] at he
      exact he.symm
    · simp [Exchange.find_key, h] at he
  · by_cases h1 : (g.op_import pubkey).considered = 1
    · by_cases h2 : (g.op_import pubkey).imported = 1
      · rcases get_imported_key_cases g (g.op_import pubkey)
          with ⟨k, hk⟩ | ⟨msg, hm⟩
        · simp [Exchange.import_key, h1, h2, hk] at he
        · simp [Exchange.import_key, h1, h2, hm] at he
          exact ⟨msg, he.symm⟩
      · simp [Exchange.import_key, h1, h2] at he
        exact ⟨"Given public key must be valid", he.symm⟩
    · simp [Exchange.import_key, h1] at he
      exact ⟨"Exactly one public key must be provided", he.symm⟩
  · by_cases hc : ge.code = NO_DATA
    · exact ⟨.valueError "No encrypted data",
        by simp [Exchange.decrypt_text, Exchange.decrypt_inner, hge, hc],
        by simp [Exchange.decrypt_file, Exchange.decrypt_inner, hge, hc],
        fun hne => absurd hc hne, fun _ => rfl⟩
    · exact ⟨.gpgmeError ge,
        by simp [Exchange.decrypt_text, Exchange.decrypt_inner, hge, hc],
        by simp [Exchange.decrypt_file, Exchange.decrypt_inner, hge, hc],
        fun _ => rfl, fun hcc => absurd hcc hc⟩
  · simp [Exchange.decrypt_text, Exchange.decrypt_inner, hp,
      read_data_written]

/-- Closed instances for `error_propagation`: a `find_key` failure carries
the pattern, an engine decrypt success is returned intact, and one engine
encrypt call happens per encryption. -/
theorem error_propagation_witness :
    PyError.keyError "pat" = .keyError "pat" ∧
    Exchange.decrypt_text (testEngine [] ⟨2, 0, []⟩ "out" (.ok "plain"))
      "x" = .ok "plain" ∧
    (Exchange.encrypt_text (testEngine [] ⟨2, 0, []⟩ "out" (.ok "plain"))
      "msg" Option.none false).2.length = 1 :=
  ⟨(error_propagation (testEngine [] ⟨2, 0, []⟩ "out" (.ok "plain"))).1
      "pat" (.keyError "pat") rfl,
   (error_propagation
      (testEngine [] ⟨2, 0, []⟩ "out" (.ok "plain"))).2.2.2.1 "x" "plain"
      rfl,
   (error_propagation
      (testEngine [] ⟨2, 0, []⟩ "out" (.ok "plain"))).2.2.2.2.1 "msg"
      Option.none false⟩
